import Mathlib

/-!
Verification of the agentic-airport flight-simulation core.

The definitions below are a shallow embedding of the TypeScript source:
JavaScript numbers are modelled as real numbers, records as structures,
union-of-string-literal types as inductive types, and boolean-returning
geometry tests as decidable-in-principle propositions over ℝ (branching
uses classical decidability, mirroring the runtime branch on the float
comparison).  Logging calls (`debugLog`, `console.log`) have no effect on
the returned values and are omitted.
-/

open scoped Classical

noncomputable section

namespace AgenticAirport

/-- 2D point on the canvas (`Position` in src/types/game.ts). -/
structure Position where
  x : ℝ
  y : ℝ
deriving DecidableEq

/-- Plane lifecycle status (the union type in src/types/game.ts). -/
inductive PlaneStatus where
  | flying
  | approaching
  | landed
  | crashed
deriving DecidableEq

/-- Aircraft record (`Plane` in src/types/game.ts). -/
structure Plane where
  id : String
  position : Position
  heading : ℝ
  speed : ℝ
  status : PlaneStatus
  callsign : String
  color : String
deriving DecidableEq

/-- Airport record (`Airport` in src/types/game.ts). -/
structure Airport where
  position : Position
  runwayStart : Position
  runwayEnd : Position
  runwayWidth : ℝ
  runwayHeading : ℝ

/-- Game configuration (`GameConfig` in src/types/game.ts); only the
fields the simulation core reads are modelled. -/
structure GameConfig where
  initialPlaneCount : ℕ
  minPlanes : ℕ
  maxPlanes : ℕ
  gameSpeed : ℝ

/-- Whole-session state (`GameState` in src/types/game.ts). -/
structure GameState where
  planes : List Plane
  airport : Airport
  canvasWidth : ℝ
  canvasHeight : ℝ
  isPaused : Bool
  collisions : ℕ
  landings : ℕ
  gameTime : ℝ

/-- Command action (`AICommand.action` in src/types/game.ts). -/
inductive AIAction where
  | turn
  | speed
  | hold
  | approach
deriving DecidableEq

/-- Command record (`AICommand` in src/types/game.ts); `value` is the
optional numeric argument. -/
structure AICommand where
  planeId : String
  action : AIAction
  value : Option ℝ

/-! ## Geometry kernel (src/utils/geometry.ts, part_010 variant) -/

/-- `degToRad` from geometry.ts. -/
def degToRad (degrees : ℝ) : ℝ :=
  degrees * Real.pi / 180

/-- JavaScript `Math.trunc` on reals: round toward zero. -/
def jsTrunc (x : ℝ) : ℤ :=
  if 0 ≤ x then ⌊x⌋ else ⌈x⌉

/-- JavaScript remainder operator `x % y` (sign follows the dividend). -/
def jsMod (x y : ℝ) : ℝ :=
  x - y * (jsTrunc (x / y) : ℤ)

/-- `normalizeAngle` from geometry.ts (the `%`-based variant):
`let a = angle % 360; if (a < 0) a += 360; return a;`. -/
def normalizeAngle (angle : ℝ) : ℝ :=
  let a := jsMod angle 360
  if a < 0 then a + 360 else a

/-- Euclidean `distance` from geometry.ts. -/
def distance (p1 p2 : Position) : ℝ :=
  Real.sqrt ((p2.x - p1.x) ^ 2 + (p2.y - p1.y) ^ 2)

/-- `getWrappedDelta` from geometry.ts: per-axis shortest delta under
toroidal wrap-around. -/
def getWrappedDelta (p1 p2 : Position) (canvasWidth canvasHeight : ℝ) : ℝ × ℝ :=
  let dx := p2.x - p1.x
  let dy := p2.y - p1.y
  let dx' := if |dx| > canvasWidth / 2 then
      (if dx > 0 then dx - canvasWidth else dx + canvasWidth) else dx
  let dy' := if |dy| > canvasHeight / 2 then
      (if dy > 0 then dy - canvasHeight else dy + canvasHeight) else dy
  (dx', dy')

/-- `wrappedDistance` from geometry.ts. -/
def wrappedDistance (p1 p2 : Position) (canvasWidth canvasHeight : ℝ) : ℝ :=
  let wrapped := getWrappedDelta p1 p2 canvasWidth canvasHeight
  Real.sqrt (wrapped.1 ^ 2 + wrapped.2 ^ 2)

/-- JavaScript `Math.atan2 (y, x)`. -/
def atan2 (y x : ℝ) : ℝ :=
  if 0 < x then Real.arctan (y / x)
  else if x < 0 then
    (if 0 ≤ y then Real.arctan (y / x) + Real.pi else Real.arctan (y / x) - Real.pi)
  else
    (if 0 < y then Real.pi / 2 else if y < 0 then -(Real.pi / 2) else 0)

/-- `wrappedHeadingTo` from geometry.ts. -/
def wrappedHeadingTo (p1 p2 : Position) (canvasWidth canvasHeight : ℝ) : ℝ :=
  let d := getWrappedDelta p1 p2 canvasWidth canvasHeight
  normalizeAngle (atan2 d.2 d.1 * 180 / Real.pi)

/-- `movePosition` from geometry.ts: linear integration along a heading. -/
def movePosition (position : Position) (heading speed : ℝ) : Position :=
  let rad := degToRad heading
  ⟨position.x + Real.cos rad * speed, position.y + Real.sin rad * speed⟩

/-- `checkCollision` from geometry.ts: the pair collides when neither is
landed or crashed and the raw Euclidean distance is below `minDistance`
(the call sites use the default `30`). -/
def checkCollision (plane1 plane2 : Plane) (minDistance : ℝ) : Prop :=
  plane1.status ≠ .landed ∧ plane2.status ≠ .landed ∧
  plane1.status ≠ .crashed ∧ plane2.status ≠ .crashed ∧
  distance plane1.position plane2.position < minDistance

/-- `angleDifference` from geometry.ts: signed shortest angular delta. -/
def angleDifference (angle1 angle2 : ℝ) : ℝ :=
  let diff := normalizeAngle angle2 - normalizeAngle angle1
  let diff1 := if diff > 180 then diff - 360 else diff
  if diff1 < -180 then diff1 + 360 else diff1

/-- Zone constant from geometry.ts. -/
def APPROACH_ZONE_LENGTH : ℝ := 300

/-- Zone constant from geometry.ts. -/
def LANDING_ZONE_EXTENSION : ℝ := 100

/-- Zone constant from geometry.ts. -/
def AIRPORT_ZONE_PADDING : ℝ := 30

/-- `toRunwayLocal` from geometry.ts: runway-aligned coordinates. -/
def toRunwayLocal (position runwayStart : Position) (runwayAngle : ℝ) : Position :=
  let dx := position.x - runwayStart.x
  let dy := position.y - runwayStart.y
  ⟨dx * Real.cos (-runwayAngle) - dy * Real.sin (-runwayAngle),
   dx * Real.sin (-runwayAngle) + dy * Real.cos (-runwayAngle)⟩

/-- `getRunwayAngle` from geometry.ts. -/
def getRunwayAngle (runwayStart runwayEnd : Position) : ℝ :=
  atan2 (runwayEnd.y - runwayStart.y) (runwayEnd.x - runwayStart.x)

/-- `isOnRunway` from geometry.ts: containment in the runway rectangle,
optionally extended past the far end by `LANDING_ZONE_EXTENSION`. -/
def isOnRunway (position runwayStart runwayEnd : Position) (runwayWidth : ℝ)
    (includeLandingExtension : Bool) : Prop :=
  let runwayLength := distance runwayStart runwayEnd
  let runwayAngle := getRunwayAngle runwayStart runwayEnd
  let lcl := toRunwayLocal position runwayStart runwayAngle
  let maxX := if includeLandingExtension then runwayLength + LANDING_ZONE_EXTENSION
              else runwayLength
  lcl.x ≥ 0 ∧ lcl.x ≤ maxX ∧ |lcl.y| ≤ runwayWidth / 2

/-- `isOverAirport` from geometry.ts: runway rectangle padded by
`AIRPORT_ZONE_PADDING` on every side. -/
def isOverAirport (position runwayStart runwayEnd : Position) (runwayWidth : ℝ) : Prop :=
  let runwayLength := distance runwayStart runwayEnd
  let runwayAngle := getRunwayAngle runwayStart runwayEnd
  let lcl := toRunwayLocal position runwayStart runwayAngle
  let zoneHalfWidth := runwayWidth / 2 + AIRPORT_ZONE_PADDING
  lcl.x ≥ -AIRPORT_ZONE_PADDING ∧
  lcl.x ≤ runwayLength + AIRPORT_ZONE_PADDING ∧
  |lcl.y| ≤ zoneHalfWidth

/-- `isInApproachZone` from geometry.ts: rectangle of length
`APPROACH_ZONE_LENGTH` behind the runway start, twice the runway width. -/
def isInApproachZone (position runwayStart runwayEnd : Position) (runwayWidth : ℝ) : Prop :=
  let runwayAngle := getRunwayAngle runwayStart runwayEnd
  let approachZoneEntry : Position :=
    ⟨runwayStart.x - Real.cos runwayAngle * APPROACH_ZONE_LENGTH,
     runwayStart.y - Real.sin runwayAngle * APPROACH_ZONE_LENGTH⟩
  let lcl := toRunwayLocal position approachZoneEntry runwayAngle
  let approachWidth := runwayWidth * 2
  lcl.x ≥ 0 ∧ lcl.x ≤ APPROACH_ZONE_LENGTH ∧ |lcl.y| ≤ approachWidth / 2

/-- `normalizeAngle` from src/src/utils/geometry.ts (the while-loop
variant), first loop: `while (angle < 0) angle += 360`. -/
def normUp (x : ℝ) : ℝ :=
  if h : x < 0 then normUp (x + 360) else x
termination_by (⌈-x / 360⌉).toNat
decreasing_by
  have h1 : (0 : ℝ) < -x := by linarith
  have h2 : -(x + 360) / 360 = -x / 360 - 1 := by ring
  have h3 : (1 : ℤ) ≤ ⌈-x / 360⌉ := by
    have : (0 : ℝ) < -x / 360 := by positivity
    exact Int.ceil_pos.mpr this
  have h4 : ⌈-(x + 360) / 360⌉ = ⌈-x / 360⌉ - 1 := by
    rw [h2]
    exact_mod_cast Int.ceil_sub_int (-x / 360) 1
  omega

/-- Loop-variant `normalizeAngle`, second loop:
`while (angle >= 360) angle -= 360`. -/
def normDown (x : ℝ) : ℝ :=
  if h : x ≥ 360 then normDown (x - 360) else x
termination_by (⌊x / 360⌋).toNat
decreasing_by
  have h3 : (1 : ℤ) ≤ ⌊x / 360⌋ := by exact_mod_cast Int.le_floor.mpr (by push_cast; linarith)
  have h2 : (x - 360) / 360 = x / 360 - 1 := by ring
  have h4 : ⌊(x - 360) / 360⌋ = ⌊x / 360⌋ - 1 := by
    rw [h2]
    exact_mod_cast Int.floor_sub_int (x / 360) 1
  omega

/-- `normalizeAngle` from src/src/utils/geometry.ts: two sequential
while-loops bringing the angle into `[0, 360)`. -/
def normalizeAngleLoop (angle : ℝ) : ℝ :=
  normDown (normUp angle)

/-! ## Simulation stepper (`useGame.ts`, the late variant in part_002) -/

/-- `checkLanding` from useGame.ts: an `approaching` plane inside the
extended runway rectangle, aligned within 25° of the runway heading and
slower than 2, becomes `landed` with speed frozen to 0. -/
def checkLanding (plane : Plane) (airport : Airport) : Plane :=
  if plane.status = .landed ∨ plane.status = .crashed then plane
  else
    let onRunway := isOnRunway plane.position airport.runwayStart airport.runwayEnd
        airport.runwayWidth true
    if onRunway ∧ plane.status = .approaching then
      if |angleDifference plane.heading airport.runwayHeading| < 25 ∧ plane.speed < 2 then
        { plane with status := .landed, speed := 0 }
      else plane
    else plane

/-- Edge wrap-around from `updateGame` (useGame.ts): positions beyond
±50 px outside the canvas re-enter from the opposite edge.  The two `if`
statements per axis are sequential, as in the source. -/
def wrapPosition (p : Position) (canvasWidth canvasHeight : ℝ) : Position :=
  let x1 := if p.x < -50 then canvasWidth + 50 else p.x
  let x2 := if x1 > canvasWidth + 50 then -50 else x1
  let y1 := if p.y < -50 then canvasHeight + 50 else p.y
  let y2 := if y1 > canvasHeight + 50 then -50 else y1
  ⟨x2, y2⟩

/-- Per-plane movement step of `updateGame` (useGame.ts): terminal
planes are returned untouched; an `approaching` plane first gets its
heading auto-corrected toward the runway center by at most 2° per frame;
then the position is integrated and wrapped. -/
def movePlane (cfg : GameConfig) (dt : ℝ) (airport : Airport)
    (canvasWidth canvasHeight : ℝ) (plane : Plane) : Plane :=
  if plane.status = .landed ∨ plane.status = .crashed then plane
  else
    let corrected :=
      if plane.status = .approaching then
        let runwayCenter : Position :=
          ⟨(airport.runwayStart.x + airport.runwayEnd.x) / 2,
           (airport.runwayStart.y + airport.runwayEnd.y) / 2⟩
        let dx := runwayCenter.x - plane.position.x
        let dy := runwayCenter.y - plane.position.y
        let targetHeading := normalizeAngle (atan2 dy dx * 180 / Real.pi)
        let headingDiff := angleDifference plane.heading targetHeading
        if |headingDiff| > 1 then
          let correction := Real.sign headingDiff * min |headingDiff| 2
          { plane with heading := normalizeAngle (plane.heading + correction) }
        else plane
      else plane
    let newPosition := movePosition corrected.position corrected.heading
        (corrected.speed * dt * cfg.gameSpeed)
    { corrected with position := wrapPosition newPosition canvasWidth canvasHeight }

/-- Inner loop (index `j`) of the pairwise collision scan in
`updateGame`: plane `p` is checked against each later plane in turn; a
hit marks both `crashed` and increments the counter, and the scan
continues with the already-crashed `p`. -/
def collideOne (p : Plane) (c : ℕ) : List Plane → Plane × List Plane × ℕ
  | [] => (p, [], c)
  | q :: qs =>
    if checkCollision p q 30 ∧ p.status ≠ .crashed ∧ q.status ≠ .crashed then
      let r := collideOne { p with status := .crashed } (c + 1) qs
      (r.1, { q with status := .crashed } :: r.2.1, r.2.2)
    else
      let r := collideOne p c qs
      (r.1, q :: r.2.1, r.2.2)

theorem collideOne_length (p : Plane) (c : ℕ) (l : List Plane) :
    (collideOne p c l).2.1.length = l.length := by
  induction l generalizing p c with
  | nil => rfl
  | cons q qs ih =>
    rw [collideOne]
    split
    · simp [ih]
    · simp [ih]

/-- Outer loop (index `i`) of the pairwise collision scan in
`updateGame` (useGame.ts lines 909–939). -/
def collisionPass (c : ℕ) : List Plane → List Plane × ℕ
  | [] => ([], c)
  | p :: rest =>
    let r1 := collideOne p c rest
    let r2 := collisionPass r1.2.2 r1.2.1
    (r1.1 :: r2.1, r2.2)
termination_by l => l.length
decreasing_by
  simp [collideOne_length]

/-- Airport-incursion scan of `updateGame` (useGame.ts lines 941–965):
every still-`flying` plane found inside the airport exclusion zone is
marked `crashed` and the collision counter is incremented. -/
def airportZonePass (airport : Airport) (c : ℕ) : List Plane → List Plane × ℕ
  | [] => ([], c)
  | p :: rest =>
    if p.status = .flying ∧
        isOverAirport p.position airport.runwayStart airport.runwayEnd airport.runwayWidth then
      let r := airportZonePass airport (c + 1) rest
      ({ p with status := .crashed } :: r.1, r.2)
    else
      let r := airportZonePass airport c rest
      (p :: r.1, r.2)

/-! ## Predictive safety forecaster (flightPrediction variant used by
the command applier: part_002 lines 405–550, 60 fps, 5-frame sampling,
threshold 50, raw Euclidean distance between simulated positions) -/

/-- The sampled frame numbers `5, 10, …, secondsAhead*60` of the
forecaster loop (`checkInterval = 5`, `fps = 60`). -/
def predictFrames (secondsAhead : ℕ) : List ℕ :=
  (List.range (12 * secondsAhead)).map (fun i => 5 * (i + 1))

/-- Inner loop of `predictCollision`: scan the other planes at one
sampled frame; returns the first active other plane whose simulated
position is within 50 px of this plane's simulated position. -/
def collideScan (plane : Plane) (headingRad planeSpeed gameSpeed : ℝ)
    (frame : ℕ) : List Plane → Option Plane
  | [] => none
  | other :: rest =>
    if other.id = plane.id ∨ other.status = .crashed ∨ other.status = .landed then
      collideScan plane headingRad planeSpeed gameSpeed frame rest
    else
      let simX := plane.position.x + Real.cos headingRad * planeSpeed * frame
      let simY := plane.position.y + Real.sin headingRad * planeSpeed * frame
      let otherHeadingRad := other.heading * Real.pi / 180
      let otherSpeed := other.speed * gameSpeed
      let otherSimX := other.position.x + Real.cos otherHeadingRad * otherSpeed * frame
      let otherSimY := other.position.y + Real.sin otherHeadingRad * otherSpeed * frame
      let dist := Real.sqrt ((simX - otherSimX) ^ 2 + (simY - otherSimY) ^ 2)
      if dist < 50 then some other
      else collideScan plane headingRad planeSpeed gameSpeed frame rest

/-- Outer loop of `predictCollision` over the sampled frames. -/
def predictCollisionAux (plane : Plane) (headingRad planeSpeed gameSpeed : ℝ)
    (allPlanes : List Plane) : List ℕ → Option (Plane × ℕ)
  | [] => none
  | frame :: frames =>
    match collideScan plane headingRad planeSpeed gameSpeed frame allPlanes with
    | some other => some (other, frame)
    | none => predictCollisionAux plane headingRad planeSpeed gameSpeed allPlanes frames

/-- `predictCollision` from part_002: forward-simulate `plane` under
`newHeading` and every other active plane under its current heading, at
5-frame samples up to `secondsAhead` seconds; `some (other, frame)`
plays the role of `{willCollide: true, collidingPlane: other,
timeToCollision: frame/60}`, `none` of `{willCollide: false}`.  The
call sites in `applyCommand` use the default `secondsAhead = 8`. -/
def predictCollision (plane : Plane) (newHeading : ℝ) (allPlanes : List Plane)
    (cfg : GameConfig) (secondsAhead : ℕ) : Option (Plane × ℕ) :=
  let headingRad := newHeading * Real.pi / 180
  let planeSpeed := plane.speed * cfg.gameSpeed
  predictCollisionAux plane headingRad planeSpeed cfg.gameSpeed allPlanes
    (predictFrames secondsAhead)

/-- The fixed ordered offset list tried by `findSafeHeading`. -/
def adjustments : List ℝ :=
  [30, -30, 60, -60, 90, -90, 120, -120, 150, -150, 180]

/-- Loop of `findSafeHeading` over the offset list. -/
def findSafeHeadingAux (plane : Plane) (requestedHeading : ℝ)
    (allPlanes : List Plane) (cfg : GameConfig) : List ℝ → Option ℝ
  | [] => none
  | adj :: rest =>
    let alternativeHeading := normalizeAngle (requestedHeading + adj)
    if (predictCollision plane alternativeHeading allPlanes cfg 8).isSome then
      findSafeHeadingAux plane requestedHeading allPlanes cfg rest
    else some alternativeHeading

/-- `findSafeHeading` from part_002: first offset heading that
`predictCollision` clears, `none` when every offset is predicted to
collide. -/
def findSafeHeading (plane : Plane) (requestedHeading : ℝ)
    (allPlanes : List Plane) (cfg : GameConfig) : Option ℝ :=
  findSafeHeadingAux plane requestedHeading allPlanes cfg adjustments

/-- Loop of `predictAirportZoneEntry` over the sampled frames;
`some frame` plays the role of `{willEnter: true, framesUntilEntry}`. -/
def predictAirportZoneEntryAux (plane : Plane) (headingRad planeSpeed : ℝ)
    (airport : Airport) : List ℕ → Option ℕ
  | [] => none
  | frame :: frames =>
    let simX := plane.position.x + Real.cos headingRad * planeSpeed * frame
    let simY := plane.position.y + Real.sin headingRad * planeSpeed * frame
    if isOverAirport ⟨simX, simY⟩ airport.runwayStart airport.runwayEnd
        airport.runwayWidth then some frame
    else predictAirportZoneEntryAux plane headingRad planeSpeed airport frames

/-- `predictAirportZoneEntry` from part_002: same sampling scheme,
testing `isOverAirport` at each sample. -/
def predictAirportZoneEntry (plane : Plane) (heading : ℝ) (airport : Airport)
    (cfg : GameConfig) (secondsAhead : ℕ) : Option ℕ :=
  let headingRad := heading * Real.pi / 180
  let planeSpeed := plane.speed * cfg.gameSpeed
  predictAirportZoneEntryAux plane headingRad planeSpeed airport
    (predictFrames secondsAhead)

/-- `findHeadingAwayFromAirport` from part_002: heading directly away
from the runway center, falling back to 180 when that heading still
predicts zone entry within 5 seconds. -/
def findHeadingAwayFromAirport (plane : Plane) (airport : Airport)
    (cfg : GameConfig) : ℝ :=
  let runwayCenter : Position :=
    ⟨(airport.runwayStart.x + airport.runwayEnd.x) / 2,
     (airport.runwayStart.y + airport.runwayEnd.y) / 2⟩
  let dx := plane.position.x - runwayCenter.x
  let dy := plane.position.y - runwayCenter.y
  let awayHeading := normalizeAngle (atan2 dy dx * 180 / Real.pi)
  if (predictAirportZoneEntry plane awayHeading airport cfg 5).isSome then 180
  else awayHeading

/-! ## Command validator & applier (part_008 `applyCommand`; part_002
lines 624–821 are an identical inline copy) -/

/-- Collision stage of the `turn` branch: `some h` means the turn goes
ahead with heading `h` (the requested heading, or a safe substitute);
`none` means the turn was rejected because a collision was predicted
and no offset heading was safe. -/
def turnCollisionStage (plane : Plane) (newHeading : ℝ)
    (allPlanes : List Plane) (cfg : GameConfig) : Option ℝ :=
  if (predictCollision plane newHeading allPlanes cfg 8).isSome then
    findSafeHeading plane newHeading allPlanes cfg
  else some newHeading

/-- `applyCommand` from part_008: validates and applies one directive,
returning the updated plane (the unchanged plane when the command is
blocked or rejected). -/
def applyCommand (plane : Plane) (command : AICommand) (airport : Airport)
    (allPlanes : List Plane) (cfg : GameConfig) : Plane :=
  let inApproach := isInApproachZone plane.position airport.runwayStart
      airport.runwayEnd airport.runwayWidth
  match command.action with
  | .turn =>
    -- turns are blocked outright for approaching planes
    if plane.status = .approaching then plane
    else
      match command.value with
      | none => plane
      | some v =>
        let requested := normalizeAngle v
        match turnCollisionStage plane requested allPlanes cfg with
        | none => plane
        | some h1 =>
          if plane.status = .flying then
            if (predictAirportZoneEntry plane h1 airport cfg 6).isSome then
              let safeHeading := findHeadingAwayFromAirport plane airport cfg
              if (predictCollision plane safeHeading allPlanes cfg 8).isSome then plane
              else { plane with heading := safeHeading }
            else { plane with heading := h1 }
          else { plane with heading := h1 }
  | .speed =>
    match command.value with
    | none => plane
    | some v => { plane with speed := max 0.15 (min 0.8 v) }
  | .approach =>
    -- only takes effect inside the approach corridor
    if inApproach then { plane with status := .approaching, speed := min plane.speed 0.4 }
    else plane
  | .hold =>
    -- hold is blocked outright for approaching planes
    if plane.status = .approaching then plane
    else
      if (predictAirportZoneEntry plane plane.heading airport cfg 6).isSome then
        { plane with
          heading := findHeadingAwayFromAirport plane airport cfg
          speed := max 0.15 (plane.speed * 0.7) }
      else
        let diff := 180 - plane.heading
        let newHeading :=
          if |diff| > 15 then normalizeAngle (plane.heading + (if diff > 0 then 15 else -15))
          else 180
        { plane with heading := newHeading, speed := max 0.2 (plane.speed * 0.8) }

/-- `updateGame` from useGame.ts (part_002 lines 861–984): the pure
state transition of one simulation tick (the `setGameState` body). -/
def updateGame (cfg : GameConfig) (deltaTime : ℝ) (prev : GameState) : GameState :=
  if prev.isPaused then prev
  else
    let dt := deltaTime / 16.67
    let moved := prev.planes.map
        (movePlane cfg dt prev.airport prev.canvasWidth prev.canvasHeight)
    let collided := collisionPass prev.collisions moved
    let zoned := airportZonePass prev.airport collided.2 collided.1
    let afterLanding := zoned.1.map (fun p => checkLanding p prev.airport)
    let newLandings := (afterLanding.filter
        (fun p => decide (p.status = PlaneStatus.landed))).length
    let active := afterLanding.filter (fun p => decide (p.status ≠ PlaneStatus.landed))
    { prev with
      planes := active
      collisions := zoned.2
      landings := prev.landings + newLandings
      gameTime := prev.gameTime + deltaTime / 1000 }

/-! ## Angle arithmetic lemmas -/

theorem jsMod360_gt (x : ℝ) : -360 < jsMod x 360 := by
  unfold jsMod jsTrunc
  by_cases hx : 0 ≤ x / 360
  · rw [if_pos hx]
    have h1 : ((⌊x / 360⌋ : ℤ) : ℝ) ≤ x / 360 := Int.floor_le _
    linarith
  · rw [if_neg hx]
    have h2 : ((⌈x / 360⌉ : ℤ) : ℝ) < x / 360 + 1 := Int.ceil_lt_add_one _
    linarith

theorem jsMod360_lt (x : ℝ) : jsMod x 360 < 360 := by
  unfold jsMod jsTrunc
  by_cases hx : 0 ≤ x / 360
  · rw [if_pos hx]
    have h2 : x / 360 < ((⌊x / 360⌋ : ℤ) : ℝ) + 1 := Int.lt_floor_add_one _
    linarith
  · rw [if_neg hx]
    have h1 : x / 360 ≤ ((⌈x / 360⌉ : ℤ) : ℝ) := Int.le_ceil _
    linarith

theorem jsMod360_nonneg_of_nonneg (x : ℝ) (hx : 0 ≤ x) : 0 ≤ jsMod x 360 := by
  unfold jsMod jsTrunc
  rw [if_pos (by positivity)]
  have h1 : ((⌊x / 360⌋ : ℤ) : ℝ) ≤ x / 360 := Int.floor_le _
  linarith

theorem jsMod360_exists_int (x : ℝ) : ∃ k : ℤ, jsMod x 360 = x + 360 * k := by
  unfold jsMod jsTrunc
  by_cases hx : 0 ≤ x / 360
  · exact ⟨-⌊x / 360⌋, by rw [if_pos hx]; push_cast; ring⟩
  · exact ⟨-⌈x / 360⌉, by rw [if_neg hx]; push_cast; ring⟩

theorem normalizeAngle_nonneg (x : ℝ) : 0 ≤ normalizeAngle x := by
  have hg := jsMod360_gt x
  simp only [normalizeAngle]
  split_ifs with h
  · linarith
  · linarith [not_lt.mp h]

theorem normalizeAngle_lt_360 (x : ℝ) : normalizeAngle x < 360 := by
  have hl := jsMod360_lt x
  simp only [normalizeAngle]
  split_ifs with h
  · linarith
  · exact hl

theorem normalizeAngle_exists_int (x : ℝ) : ∃ k : ℤ, normalizeAngle x = x + 360 * k := by
  obtain ⟨k, hk⟩ := jsMod360_exists_int x
  simp only [normalizeAngle]
  split_ifs with h
  · exact ⟨k + 1, by rw [hk]; push_cast; ring⟩
  · exact ⟨k, hk⟩

theorem normalizeAngle_eq_self (x : ℝ) (h0 : 0 ≤ x) (h1 : x < 360) :
    normalizeAngle x = x := by
  have hfloor : ⌊x / 360⌋ = 0 := by
    rw [Int.floor_eq_zero_iff]
    constructor
    · positivity
    · rw [div_lt_one (by norm_num)]; linarith
  have hmod : jsMod x 360 = x := by
    unfold jsMod jsTrunc
    rw [if_pos (by positivity), hfloor]
    push_cast
    ring
  simp only [normalizeAngle, hmod]
  rw [if_neg (not_lt.mpr h0)]

theorem normalizeAngle_idem (x : ℝ) :
    normalizeAngle (normalizeAngle x) = normalizeAngle x :=
  normalizeAngle_eq_self _ (normalizeAngle_nonneg x) (normalizeAngle_lt_360 x)

theorem angleDifference_bounds (a b : ℝ) :
    -180 ≤ angleDifference a b ∧ angleDifference a b ≤ 180 := by
  have h1 := normalizeAngle_nonneg a
  have h2 := normalizeAngle_lt_360 a
  have h3 := normalizeAngle_nonneg b
  have h4 := normalizeAngle_lt_360 b
  simp only [angleDifference]
  split_ifs with ha hb hb <;> constructor <;> linarith

theorem angleDifference_exists_int (a b : ℝ) :
    ∃ k : ℤ, angleDifference a b = b - a + 360 * k := by
  obtain ⟨k1, hk1⟩ := normalizeAngle_exists_int a
  obtain ⟨k2, hk2⟩ := normalizeAngle_exists_int b
  simp only [angleDifference]
  split_ifs
  · exact ⟨k2 - k1, by rw [hk1, hk2]; push_cast; ring⟩
  · exact ⟨k2 - k1 - 1, by rw [hk1, hk2]; push_cast; ring⟩
  · exact ⟨k2 - k1 + 1, by rw [hk1, hk2]; push_cast; ring⟩
  · exact ⟨k2 - k1, by rw [hk1, hk2]; push_cast; ring⟩

theorem angleDifference_self (a : ℝ) : angleDifference a a = 0 := by
  simp only [angleDifference, sub_self]
  norm_num

/-- The signed angular delta from `a` to a point congruent to `a + c`
is exactly `c`, whenever `|c| ≤ 2`. -/
theorem angleDifference_small (a c : ℝ) (hc : |c| ≤ 2) :
    angleDifference a (normalizeAngle (a + c)) = c := by
  obtain ⟨k0, hk0⟩ := normalizeAngle_exists_int (a + c)
  obtain ⟨k, hk⟩ := angleDifference_exists_int a (normalizeAngle (a + c))
  obtain ⟨hb1, hb2⟩ := angleDifference_bounds a (normalizeAngle (a + c))
  have h1 : angleDifference a (normalizeAngle (a + c)) = c + 360 * ((k0 : ℝ) + (k : ℝ)) := by
    rw [hk, hk0]; ring
  obtain ⟨hc1, hc2⟩ := abs_le.mp hc
  have hm : k0 + k = 0 := by
    rw [h1] at hb1 hb2
    by_contra hne
    rcases lt_or_gt_of_ne hne with hlt | hgt
    · have hle : (k0 + k : ℤ) ≤ -1 := by omega
      have hle' : ((k0 : ℝ) + (k : ℝ)) ≤ -1 := by exact_mod_cast hle
      nlinarith
    · have hge : (1 : ℤ) ≤ k0 + k := by omega
      have hge' : (1 : ℝ) ≤ (k0 : ℝ) + (k : ℝ) := by exact_mod_cast hge
      nlinarith
  have hm' : (k0 : ℝ) + (k : ℝ) = 0 := by exact_mod_cast congrArg (fun z : ℤ => (z : ℝ)) hm
  rw [h1, hm']
  ring

/-! ## Loop-variant normalization lemmas -/

theorem normUp_spec : ∀ n : ℕ, ∀ x : ℝ, (⌈-x / 360⌉).toNat ≤ n →
    (0 ≤ normUp x ∧ ∃ k : ℤ, normUp x = x + 360 * k) := by
  intro n
  induction n with
  | zero =>
    intro x hx
    have hceil : ⌈-x / 360⌉ ≤ 0 := by omega
    have hx0 : 0 ≤ x := by
      by_contra hneg
      push_neg at hneg
      have hpos : (0 : ℝ) < -x / 360 := by linarith
      have := Int.ceil_pos.mpr hpos
      omega
    rw [normUp, dif_neg (not_lt.mpr hx0)]
    exact ⟨hx0, 0, by ring⟩
  | succ n ih =>
    intro x hx
    by_cases hneg : x < 0
    · rw [normUp, dif_pos hneg]
      have h3 : (1 : ℤ) ≤ ⌈-x / 360⌉ := Int.ceil_pos.mpr (by linarith)
      have h4 : ⌈-(x + 360) / 360⌉ = ⌈-x / 360⌉ - 1 := by
        have h2 : -(x + 360) / 360 = -x / 360 - 1 := by ring
        rw [h2]
        exact_mod_cast Int.ceil_sub_int (-x / 360) 1
      obtain ⟨hpos, k, hk⟩ := ih (x + 360) (by omega)
      exact ⟨hpos, k + 1, by rw [hk]; push_cast; ring⟩
    · rw [normUp, dif_neg hneg]
      exact ⟨not_lt.mp hneg, 0, by ring⟩

theorem normDown_spec : ∀ n : ℕ, ∀ x : ℝ, (⌊x / 360⌋).toNat ≤ n →
    (normDown x < 360 ∧ (0 ≤ x → 0 ≤ normDown x) ∧ ∃ k : ℤ, normDown x = x + 360 * k) := by
  intro n
  induction n with
  | zero =>
    intro x hx
    have hfloor : ⌊x / 360⌋ ≤ 0 := by omega
    have hx0 : x < 360 := by
      by_contra hge
      push_neg at hge
      have h1 : (1 : ℝ) ≤ x / 360 := by linarith
      have := Int.le_floor.mpr (by exact_mod_cast h1 : ((1 : ℤ) : ℝ) ≤ x / 360)
      omega
    rw [normDown, dif_neg (not_le.mpr hx0)]
    exact ⟨hx0, fun h => h, 0, by ring⟩
  | succ n ih =>
    intro x hx
    by_cases hge : x ≥ 360
    · rw [normDown, dif_pos hge]
      have h3 : (1 : ℤ) ≤ ⌊x / 360⌋ := Int.le_floor.mpr (by push_cast; linarith)
      have h4 : ⌊(x - 360) / 360⌋ = ⌊x / 360⌋ - 1 := by
        have h2 : (x - 360) / 360 = x / 360 - 1 := by ring
        rw [h2]
        exact_mod_cast Int.floor_sub_int (x / 360) 1
      obtain ⟨hlt, hpos, k, hk⟩ := ih (x - 360) (by omega)
      exact ⟨hlt, fun _ => hpos (by linarith), k - 1, by rw [hk]; push_cast; ring⟩
    · rw [normDown, dif_neg hge]
      exact ⟨not_le.mp hge, fun h => h, 0, by ring⟩

theorem normalizeAngleLoop_bounds (x : ℝ) :
    0 ≤ normalizeAngleLoop x ∧ normalizeAngleLoop x < 360 := by
  obtain ⟨hup, _, _⟩ := normUp_spec (⌈-x / 360⌉).toNat x le_rfl
  obtain ⟨hlt, hpos, _⟩ := normDown_spec (⌊normUp x / 360⌋).toNat (normUp x) le_rfl
  exact ⟨hpos hup, hlt⟩

theorem normalizeAngleLoop_eq_self (x : ℝ) (h0 : 0 ≤ x) (h1 : x < 360) :
    normalizeAngleLoop x = x := by
  unfold normalizeAngleLoop
  rw [normUp, dif_neg (not_lt.mpr h0), normDown, dif_neg (not_le.mpr h1)]

theorem normalizeAngleLoop_idem (x : ℝ) :
    normalizeAngleLoop (normalizeAngleLoop x) = normalizeAngleLoop x := by
  obtain ⟨h0, h1⟩ := normalizeAngleLoop_bounds x
  exact normalizeAngleLoop_eq_self _ h0 h1

/-! ## Claim C9 -/

/-- C9: both `normalizeAngle` variants (the `%`-based one in
geometry.ts/part_010 and the while-loop one in
src/src/utils/geometry.ts) map every real input — negative and > 360
included — into `[0, 360)`, and both are idempotent. -/
theorem normalizeAngle_range_and_idempotent :
    (∀ x : ℝ, 0 ≤ normalizeAngle x ∧ normalizeAngle x < 360 ∧
      normalizeAngle (normalizeAngle x) = normalizeAngle x) ∧
    (∀ x : ℝ, 0 ≤ normalizeAngleLoop x ∧ normalizeAngleLoop x < 360 ∧
      normalizeAngleLoop (normalizeAngleLoop x) = normalizeAngleLoop x) := by
  constructor
  · intro x
    exact ⟨normalizeAngle_nonneg x, normalizeAngle_lt_360 x, normalizeAngle_idem x⟩
  · intro x
    obtain ⟨h0, h1⟩ := normalizeAngleLoop_bounds x
    exact ⟨h0, h1, normalizeAngleLoop_idem x⟩

/-! ## Claim C8 -/

/-- One axis of `getWrappedDelta` never increases the squared delta,
as long as the canvas extent is nonnegative. -/
theorem wrapAxis_sq_le (d w : ℝ) (hw : 0 ≤ w) :
    (if |d| > w / 2 then (if d > 0 then d - w else d + w) else d) ^ 2 ≤ d ^ 2 := by
  split_ifs with h1 h2
  · have hd : w / 2 < d := by rwa [abs_of_pos h2] at h1
    nlinarith
  · have hd0 : d ≤ 0 := not_lt.mp h2
    have hd : w / 2 < -d := by rwa [abs_of_nonpos hd0] at h1
    nlinarith
  · exact le_rfl

/-- C8: for any two points and nonnegative canvas dimensions,
`wrappedDistance` never exceeds the raw Euclidean `distance`, with
equality whenever neither axis delta exceeds half the corresponding
canvas extent (i.e. no wrap-around shortcut exists). -/
theorem wrappedDistance_le_distance (p1 p2 : Position) (w h : ℝ)
    (hw : 0 ≤ w) (hh : 0 ≤ h) :
    wrappedDistance p1 p2 w h ≤ distance p1 p2 ∧
    (|p2.x - p1.x| ≤ w / 2 → |p2.y - p1.y| ≤ h / 2 →
      wrappedDistance p1 p2 w h = distance p1 p2) := by
  constructor
  · simp only [wrappedDistance, getWrappedDelta, distance]
    apply Real.sqrt_le_sqrt
    have hx := wrapAxis_sq_le (p2.x - p1.x) w hw
    have hy := wrapAxis_sq_le (p2.y - p1.y) h hh
    exact add_le_add hx hy
  · intro hdx hdy
    simp only [wrappedDistance, getWrappedDelta, distance]
    rw [if_neg (not_lt.mpr hdx), if_neg (not_lt.mpr hdy)]

/-- Witness for C8 at a concrete input: points `(0,0)` and `(3,4)` on
an 800×600 canvas, where no wrap-around shortcut exists. -/
theorem wrappedDistance_le_distance_witness :
    wrappedDistance ⟨0, 0⟩ ⟨3, 4⟩ 800 600 ≤ distance ⟨0, 0⟩ ⟨3, 4⟩ ∧
    wrappedDistance ⟨0, 0⟩ ⟨3, 4⟩ 800 600 = distance ⟨0, 0⟩ ⟨3, 4⟩ := by
  have h := wrappedDistance_le_distance ⟨0, 0⟩ ⟨3, 4⟩ 800 600 (by norm_num) (by norm_num)
  refine ⟨h.1, h.2 ?_ ?_⟩
  · rw [abs_le]
    constructor <;> norm_num
  · rw [abs_le]
    constructor <;> norm_num

/-! ## Concrete-evaluation helpers (horizontal runways) -/

theorem distance_eval (p1 p2 : Position) (d : ℝ) (hd : 0 ≤ d)
    (h : d ^ 2 = (p2.x - p1.x) ^ 2 + (p2.y - p1.y) ^ 2) : distance p1 p2 = d := by
  unfold distance
  rw [← h, Real.sqrt_sq hd]

theorem distance_horiz (sx sy ex : ℝ) (h : sx ≤ ex) :
    distance ⟨sx, sy⟩ ⟨ex, sy⟩ = ex - sx :=
  distance_eval _ _ _ (by linarith) (by ring)

theorem atan2_zero_pos (x : ℝ) (hx : 0 < x) : atan2 0 x = 0 := by
  unfold atan2
  rw [if_pos hx, zero_div, Real.arctan_zero]

theorem getRunwayAngle_horiz (sx sy ex : ℝ) (h : sx < ex) :
    getRunwayAngle ⟨sx, sy⟩ ⟨ex, sy⟩ = 0 := by
  unfold getRunwayAngle
  simp only [sub_self]
  exact atan2_zero_pos _ (by simpa using sub_pos.mpr h)

theorem toRunwayLocal_zero (p s : Position) :
    toRunwayLocal p s 0 = ⟨p.x - s.x, p.y - s.y⟩ := by
  unfold toRunwayLocal
  simp

theorem isOnRunway_horiz_iff (px py sx sy ex w : ℝ) (ext : Bool) (h : sx < ex) :
    isOnRunway ⟨px, py⟩ ⟨sx, sy⟩ ⟨ex, sy⟩ w ext ↔
      (px - sx ≥ 0 ∧
       px - sx ≤ (if ext then ex - sx + LANDING_ZONE_EXTENSION else ex - sx) ∧
       |py - sy| ≤ w / 2) := by
  unfold isOnRunway
  rw [distance_horiz _ _ _ h.le, getRunwayAngle_horiz _ _ _ h]
  simp only [toRunwayLocal_zero]

theorem isOverAirport_horiz_iff (px py sx sy ex w : ℝ) (h : sx < ex) :
    isOverAirport ⟨px, py⟩ ⟨sx, sy⟩ ⟨ex, sy⟩ w ↔
      (px - sx ≥ -AIRPORT_ZONE_PADDING ∧
       px - sx ≤ ex - sx + AIRPORT_ZONE_PADDING ∧
       |py - sy| ≤ w / 2 + AIRPORT_ZONE_PADDING) := by
  unfold isOverAirport
  rw [distance_horiz _ _ _ h.le, getRunwayAngle_horiz _ _ _ h]
  simp only [toRunwayLocal_zero]

/-! ## Claim C7 -/

/-- C7 counterexample: on the runway from `(0,0)` to `(100,0)` of width
40, the point `(180,0)` lies inside the runway rectangle when the
100 px landing overshoot extension is included, yet outside the airport
exclusion zone, whose padding reaches only 30 px past the runway end —
so `isOnRunway` (with extension) does not imply `isOverAirport`. -/
theorem isOnRunway_extension_not_in_airport_zone :
    isOnRunway ⟨180, 0⟩ ⟨0, 0⟩ ⟨100, 0⟩ 40 true ∧
    ¬ isOverAirport ⟨180, 0⟩ ⟨0, 0⟩ ⟨100, 0⟩ 40 := by
  constructor
  · rw [isOnRunway_horiz_iff _ _ _ _ _ _ _ (by norm_num)]
    refine ⟨by norm_num, ?_, by norm_num⟩
    norm_num [LANDING_ZONE_EXTENSION]
  · rw [isOverAirport_horiz_iff _ _ _ _ _ _ (by norm_num)]
    intro hcon
    have h2 := hcon.2.1
    norm_num [AIRPORT_ZONE_PADDING] at h2

/-- C7 (amended): without the landing overshoot extension, every
position on the runway rectangle is inside the airport exclusion zone
(the padding widens the rectangle on every side); with the extension
included the containment can fail, because the 100 px extension
exceeds the 30 px airport padding. -/
theorem isOnRunway_subset_isOverAirport (pos s e : Position) (w : ℝ)
    (h : isOnRunway pos s e w false) : isOverAirport pos s e w := by
  simp only [isOnRunway, Bool.false_eq_true, if_false] at h
  obtain ⟨h1, h2, h3⟩ := h
  unfold isOverAirport
  have hpad : (0 : ℝ) < AIRPORT_ZONE_PADDING := by norm_num [AIRPORT_ZONE_PADDING]
  exact ⟨by linarith, by linarith, by linarith⟩

/-- Witness for the amended C7 at a concrete input: `(50, 0)` is on the
runway from `(0,0)` to `(100,0)` (no extension) and hence inside the
airport exclusion zone. -/
theorem isOnRunway_subset_isOverAirport_witness :
    isOnRunway ⟨50, 0⟩ ⟨0, 0⟩ ⟨100, 0⟩ 40 false ∧
    isOverAirport ⟨50, 0⟩ ⟨0, 0⟩ ⟨100, 0⟩ 40 := by
  have hon : isOnRunway ⟨50, 0⟩ ⟨0, 0⟩ ⟨100, 0⟩ 40 false := by
    rw [isOnRunway_horiz_iff _ _ _ _ _ _ _ (by norm_num)]
    refine ⟨by norm_num, by norm_num, by norm_num⟩
  exact ⟨hon, isOnRunway_subset_isOverAirport _ _ _ _ hon⟩

/-! ## Claim C2 -/

/-- C2: for any non-terminal plane, the per-tick landing check produces
status `landed` exactly when the plane is `approaching`, inside the
runway rectangle extended by the landing overshoot zone, aligned within
25° of the runway heading, and slower than 2; and in that case the
returned plane is the input with status `landed` and speed frozen to 0. -/
theorem checkLanding_characterization (plane : Plane) (airport : Airport)
    (h1 : plane.status ≠ .landed) (h2 : plane.status ≠ .crashed) :
    ((checkLanding plane airport).status = .landed ↔
      (plane.status = .approaching ∧
       isOnRunway plane.position airport.runwayStart airport.runwayEnd
         airport.runwayWidth true ∧
       |angleDifference plane.heading airport.runwayHeading| < 25 ∧
       plane.speed < 2)) ∧
    ((checkLanding plane airport).status = .landed →
      checkLanding plane airport = { plane with status := .landed, speed := 0 }) := by
  unfold checkLanding
  rw [if_neg (by tauto)]
  by_cases ha : plane.status = .approaching
  · by_cases hr : isOnRunway plane.position airport.runwayStart airport.runwayEnd
        airport.runwayWidth true
    · rw [if_pos ⟨hr, ha⟩]
      by_cases hd : |angleDifference plane.heading airport.runwayHeading| < 25 ∧
          plane.speed < 2
      · rw [if_pos hd]
        exact ⟨by simp [ha, hr, hd.1, hd.2], fun _ => rfl⟩
      · rw [if_neg hd]
        constructor
        · constructor
          · intro hl; exact absurd hl h1
          · rintro ⟨-, -, hd1, hd2⟩; exact absurd ⟨hd1, hd2⟩ hd
        · intro hl; exact absurd hl h1
    · rw [if_neg (fun hc => hr hc.1)]
      constructor
      · constructor
        · intro hl; exact absurd hl h1
        · rintro ⟨-, hr', -⟩; exact absurd hr' hr
      · intro hl; exact absurd hl h1
  · rw [if_neg (fun hc => ha hc.2)]
    constructor
    · constructor
      · intro hl; exact absurd hl h1
      · rintro ⟨ha', -⟩; exact absurd ha' ha
    · intro hl; exact absurd hl h1

/-- Witness for C2 at a concrete input: an approaching plane at
`(500, 300)`, heading 0, speed 1, lands on the runway from `(400,300)`
to `(600,300)` (width 40, runway heading 0) and exits the check with
status `landed` and speed 0. -/
theorem checkLanding_witness :
    checkLanding ⟨"W1", ⟨500, 300⟩, 0, 1, .approaching, "AA100", "red"⟩
        ⟨⟨500, 300⟩, ⟨400, 300⟩, ⟨600, 300⟩, 40, 0⟩ =
      ⟨"W1", ⟨500, 300⟩, 0, 0, .landed, "AA100", "red"⟩ := by
  have hrun : isOnRunway ⟨500, 300⟩ ⟨400, 300⟩ ⟨600, 300⟩ 40 true := by
    rw [isOnRunway_horiz_iff _ _ _ _ _ _ _ (by norm_num)]
    refine ⟨by norm_num, ?_, by norm_num⟩
    norm_num [LANDING_ZONE_EXTENSION]
  have h := checkLanding_characterization
    ⟨"W1", ⟨500, 300⟩, 0, 1, .approaching, "AA100", "red"⟩
    ⟨⟨500, 300⟩, ⟨400, 300⟩, ⟨600, 300⟩, 40, 0⟩ (by decide) (by decide)
  have hland := h.2 (h.1.mpr ⟨rfl, hrun, by rw [angleDifference_self]; norm_num, by norm_num⟩)
  exact hland

/-! ## Claim C3 -/

/-- C3: `applyCommand` is a strict no-op (the aircraft is returned
unchanged, no exception) on every policy-rule violation: a `turn` or
`hold` directive for an `approaching` plane, or an `approach` directive
issued while the plane is outside the approach corridor. -/
theorem applyCommand_policy_violation_noop (plane : Plane) (command : AICommand)
    (airport : Airport) (allPlanes : List Plane) (cfg : GameConfig)
    (h : ((command.action = .turn ∨ command.action = .hold) ∧
            plane.status = .approaching) ∨
         (command.action = .approach ∧
            ¬ isInApproachZone plane.position airport.runwayStart airport.runwayEnd
                airport.runwayWidth)) :
    applyCommand plane command airport allPlanes cfg = plane := by
  unfold applyCommand
  rcases h with ⟨hact, hst⟩ | ⟨hact, hzone⟩
  · rcases hact with hturn | hhold
    · rw [hturn]
      simp only [hst, if_pos]
    · rw [hhold]
      simp only [hst, if_pos]
  · rw [hact]
    simp only
    rw [if_neg hzone]

/-- Witness for C3 at a concrete input: a `turn` command for an
approaching plane leaves the plane untouched. -/
theorem applyCommand_policy_violation_noop_witness :
    applyCommand ⟨"W2", ⟨100, 100⟩, 90, 1, .approaching, "UA200", "blue"⟩
        ⟨"W2", .turn, some 45⟩ ⟨⟨500, 300⟩, ⟨400, 300⟩, ⟨600, 300⟩, 40, 0⟩ [] ⟨3, 1, 10, 1⟩ =
      ⟨"W2", ⟨100, 100⟩, 90, 1, .approaching, "UA200", "blue"⟩ :=
  applyCommand_policy_violation_noop _ _ _ _ _ (Or.inl ⟨Or.inl rfl, rfl⟩)

/-! ## Claim C1 -/

/-- C1 counterexample: two `flying` aircraft at `(1,100)` and
`(799,100)` on an 800×600 canvas are 2 px apart under toroidal
wrap-around (well below the 30 px collision threshold), yet the
per-tick collision check `checkCollision` — which measures the raw
Euclidean distance of 798 px — does not mark the pair as colliding. -/
theorem checkCollision_misses_wrapped_pair :
    wrappedDistance ⟨1, 100⟩ ⟨799, 100⟩ 800 600 < 30 ∧
    ¬ checkCollision ⟨"A", ⟨1, 100⟩, 0, 0.5, .flying, "AA1", "red"⟩
        ⟨"B", ⟨799, 100⟩, 180, 0.5, .flying, "BA2", "blue"⟩ 30 := by
  constructor
  · simp only [wrappedDistance, getWrappedDelta]
    norm_num
    rw [Real.sqrt_lt' (by norm_num)]
    norm_num
  · intro hcon
    have hdist := hcon.2.2.2.2
    rw [distance_horiz 1 100 799 (by norm_num)] at hdist
    norm_num at hdist

/-- C1 (amended): the per-tick collision check marks a pair of
non-terminal aircraft as colliding exactly when the *raw Euclidean*
distance between their positions is below the 30 px threshold; the
wrap-around shortest path is not consulted, so a pair straddling
opposite canvas edges is not crashed even when its wrapped distance is
below the threshold. -/
theorem checkCollision_iff_euclidean (p1 p2 : Plane)
    (h1 : p1.status ≠ .landed) (h2 : p2.status ≠ .landed)
    (h3 : p1.status ≠ .crashed) (h4 : p2.status ≠ .crashed) :
    checkCollision p1 p2 30 ↔ distance p1.position p2.position < 30 := by
  unfold checkCollision
  tauto

/-- Witness for the amended C1 at a concrete input: two flying planes
at `(0,0)` and `(3,4)` — Euclidean distance 5 — are marked as
colliding. -/
theorem checkCollision_iff_euclidean_witness :
    checkCollision ⟨"A", ⟨0, 0⟩, 0, 0.5, .flying, "AA1", "red"⟩
      ⟨"B", ⟨3, 4⟩, 180, 0.5, .flying, "BA2", "blue"⟩ 30 := by
  apply (checkCollision_iff_euclidean _ _ (by decide) (by decide) (by decide)
    (by decide)).mpr
  rw [distance_eval _ _ 5 (by norm_num) (by norm_num)]
  norm_num

/-! ## Claim C6 -/

/-- The per-frame correction term of the approach auto-correction is
bounded by 2 in absolute value. -/
theorem correction_abs_le_two (d : ℝ) : |Real.sign d * min |d| 2| ≤ 2 := by
  rw [abs_mul]
  have h1 : |Real.sign d| ≤ 1 := by
    rcases lt_trichotomy d 0 with hd | hd | hd
    · rw [Real.sign_of_neg hd]; norm_num
    · rw [hd, Real.sign_zero]; norm_num
    · rw [Real.sign_of_pos hd]; norm_num
  have h0 : 0 ≤ min |d| 2 := le_min (abs_nonneg d) (by norm_num)
  have h2 : |min |d| 2| ≤ 2 := by
    rw [abs_of_nonneg h0]
    exact min_le_right _ _
  nlinarith [abs_nonneg (Real.sign d), abs_nonneg (min |d| 2)]

/-- C6: for an `approaching` aircraft, the per-tick automatic heading
correction toward the runway centerline changes the heading by at most
2 degrees (measured as the signed shortest angular difference),
regardless of how large the raw bearing error is. -/
theorem approach_correction_bounded (cfg : GameConfig) (dt : ℝ) (airport : Airport)
    (cw ch : ℝ) (plane : Plane) (h : plane.status = .approaching) :
    |angleDifference plane.heading (movePlane cfg dt airport cw ch plane).heading| ≤ 2 := by
  have key : ∀ c : ℝ, |c| ≤ 2 →
      |angleDifference plane.heading (normalizeAngle (plane.heading + c))| ≤ 2 := by
    intro c hc
    rw [angleDifference_small plane.heading c hc]
    exact hc
  have hself : |angleDifference plane.heading plane.heading| ≤ 2 := by
    rw [angleDifference_self]
    norm_num
  unfold movePlane
  rw [if_neg (by simp [h]), if_pos h]
  simp only
  split_ifs with hgt
  · exact key _ (correction_abs_le_two _)
  · exact hself

/-- Witness for C6 at a concrete input: an approaching plane at
`(100,100)` with heading 90 heading for the runway `(400,300)`–
`(600,300)`; the auto-correction applied by one movement step changes
its heading by at most 2°. -/
theorem approach_correction_bounded_witness :
    |angleDifference 90
      (movePlane ⟨3, 1, 10, 1⟩ 1 ⟨⟨500, 300⟩, ⟨400, 300⟩, ⟨600, 300⟩, 40, 0⟩ 800 600
        ⟨"W3", ⟨100, 100⟩, 90, 1, .approaching, "DL300", "green"⟩).heading| ≤ 2 :=
  approach_correction_bounded _ _ _ _ _ _ rfl

/-! ## Claim C10 -/

/-- C10: `applyCommand` never touches a plane's position, id, callsign
or color, and the only status transition it can perform is to
`approaching`, via an `approach` command issued while the plane is
inside the approach corridor; in particular it never sets `landed` or
`crashed`. -/
theorem applyCommand_frame (plane : Plane) (command : AICommand) (airport : Airport)
    (allPlanes : List Plane) (cfg : GameConfig) :
    (applyCommand plane command airport allPlanes cfg).position = plane.position ∧
    (applyCommand plane command airport allPlanes cfg).id = plane.id ∧
    (applyCommand plane command airport allPlanes cfg).callsign = plane.callsign ∧
    (applyCommand plane command airport allPlanes cfg).color = plane.color ∧
    ((applyCommand plane command airport allPlanes cfg).status = plane.status ∨
      (command.action = .approach ∧
       isInApproachZone plane.position airport.runwayStart airport.runwayEnd
         airport.runwayWidth ∧
       (applyCommand plane command airport allPlanes cfg).status = .approaching)) := by
  obtain ⟨pid, act, val⟩ := command
  cases act with
  | turn =>
    by_cases h1 : plane.status = .approaching
    · simp [applyCommand, h1]
    · cases val with
      | none => simp [applyCommand, h1]
      | some v =>
        simp only [applyCommand, if_neg h1]
        split
        · exact ⟨rfl, rfl, rfl, rfl, Or.inl rfl⟩
        · split_ifs <;> exact ⟨rfl, rfl, rfl, rfl, Or.inl rfl⟩
  | speed =>
    cases val with
    | none => simp [applyCommand]
    | some v => exact ⟨rfl, rfl, rfl, rfl, Or.inl rfl⟩
  | approach =>
    by_cases hz : isInApproachZone plane.position airport.runwayStart airport.runwayEnd
        airport.runwayWidth
    · simp only [applyCommand, if_pos hz]
      simp [hz]
    · simp only [applyCommand, if_neg hz]
      simp
  | hold =>
    by_cases h1 : plane.status = .approaching
    · simp [applyCommand, h1]
    · simp only [applyCommand, if_neg h1]
      split_ifs <;> exact ⟨rfl, rfl, rfl, rfl, Or.inl rfl⟩

/-! ## Claim C4 -/

theorem findSafeHeadingAux_none (plane : Plane) (req : ℝ) (allPlanes : List Plane)
    (cfg : GameConfig) :
    ∀ l : List ℝ, (∀ adj ∈ l,
      (predictCollision plane (normalizeAngle (req + adj)) allPlanes cfg 8).isSome = true) →
    findSafeHeadingAux plane req allPlanes cfg l = none := by
  intro l
  induction l with
  | nil => intro _; rfl
  | cons adj rest ih =>
    intro h
    rw [findSafeHeadingAux, if_pos (h adj (List.mem_cons_self _ _))]
    exact ih (fun a ha => h a (List.mem_cons_of_mem _ ha))

/-- C4: for a non-`approaching` plane, when `predictCollision` flags
the requested heading and also flags every offset heading from the
fixed ordered list (+30, −30, …, 180), `applyCommand` with action
`turn` rejects the command: the returned plane's heading is unchanged. -/
theorem applyCommand_turn_no_safe_heading (plane : Plane) (pid : String) (v : ℝ)
    (airport : Airport) (allPlanes : List Plane) (cfg : GameConfig)
    (hstatus : plane.status ≠ .approaching)
    (hcol : (predictCollision plane (normalizeAngle v) allPlanes cfg 8).isSome = true)
    (hall : ∀ adj ∈ adjustments,
      (predictCollision plane (normalizeAngle (normalizeAngle v + adj))
        allPlanes cfg 8).isSome = true) :
    (applyCommand plane ⟨pid, .turn, some v⟩ airport allPlanes cfg).heading =
      plane.heading := by
  have hstage : turnCollisionStage plane (normalizeAngle v) allPlanes cfg = none := by
    unfold turnCollisionStage
    rw [if_pos hcol]
    exact findSafeHeadingAux_none plane (normalizeAngle v) allPlanes cfg adjustments hall
  simp only [applyCommand]
  rw [if_neg hstatus, hstage]

/-- Concrete scenario for the C4 witness: two distinct stationary
planes sharing the position `(100,100)`; every forecast heading
collides at the very first sampled frame. -/
def wplaneA : Plane := ⟨"A", ⟨100, 100⟩, 0, 0, .flying, "AA1", "red"⟩

/-- Second stationary plane of the C4 witness scenario. -/
def wplaneB : Plane := ⟨"B", ⟨100, 100⟩, 0, 0, .flying, "BA2", "blue"⟩

/-- Configuration used by the concrete witnesses (game speed 1). -/
def wcfg : GameConfig := ⟨3, 1, 10, 1⟩

theorem collideScan_wpair (hr ps : ℝ) (hps : ps = 0) (f : ℕ) :
    collideScan wplaneA hr ps wcfg.gameSpeed f [wplaneA, wplaneB] = some wplaneB := by
  subst hps
  norm_num [collideScan, wplaneA, wplaneB, wcfg, Real.sqrt_zero]
  intro hcon
  exact absurd hcon (by decide)

theorem predictCollision_wpair_isSome (hd : ℝ) :
    (predictCollision wplaneA hd [wplaneA, wplaneB] wcfg 8).isSome = true := by
  have hps : wplaneA.speed * wcfg.gameSpeed = 0 := by norm_num [wplaneA, wcfg]
  have hne : predictFrames 8 ≠ [] := by simp [predictFrames]
  obtain ⟨f, rest, hfr⟩ := List.exists_cons_of_ne_nil hne
  simp only [predictCollision]
  rw [hfr]
  simp only [predictCollisionAux]
  rw [collideScan_wpair _ _ hps f]
  rfl

/-- Witness for C4 at a concrete input: with a second stationary plane
at the same position, the requested heading 90 and all eleven offsets
are predicted to collide, and the plane's heading is left unchanged. -/
theorem applyCommand_turn_no_safe_heading_witness :
    (applyCommand wplaneA ⟨"A", .turn, some 90⟩
        ⟨⟨500, 300⟩, ⟨400, 300⟩, ⟨600, 300⟩, 40, 0⟩ [wplaneA, wplaneB] wcfg).heading =
      wplaneA.heading :=
  applyCommand_turn_no_safe_heading wplaneA "A" 90 _ _ _ (by decide)
    (predictCollision_wpair_isSome _)
    (fun adj _ => predictCollision_wpair_isSome _)

/-! ## Claim C5 -/

theorem movePlane_terminal (cfg : GameConfig) (dt : ℝ) (airport : Airport)
    (cw ch : ℝ) (p : Plane) (h : p.status = .landed ∨ p.status = .crashed) :
    movePlane cfg dt airport cw ch p = p := by
  unfold movePlane
  rw [if_pos h]

theorem checkLanding_terminal (p : Plane) (airport : Airport)
    (h : p.status = .landed ∨ p.status = .crashed) : checkLanding p airport = p := by
  unfold checkLanding
  rw [if_pos h]

theorem checkCollision_terminal (p q : Plane) (d : ℝ)
    (h : p.status = .crashed ∨ p.status = .landed ∨
         q.status = .crashed ∨ q.status = .landed) :
    ¬ checkCollision p q d := by
  unfold checkCollision
  tauto

theorem collideOne_crashed (p : Plane) (hp : p.status = .crashed) :
    ∀ (l : List Plane) (c : ℕ), collideOne p c l = (p, l, c) := by
  intro l
  induction l with
  | nil => intro c; rfl
  | cons q qs ih =>
    intro c
    rw [collideOne, if_neg (fun hcon => hcon.2.1 hp)]
    simp [ih c]

theorem collideOne_mem_crashed (x : Plane) (hx : x.status = .crashed) :
    ∀ (l : List Plane) (p : Plane) (c : ℕ), x ∈ l → x ∈ (collideOne p c l).2.1 := by
  intro l
  induction l with
  | nil => intro p c h; cases h
  | cons q qs ih =>
    intro p c hmem
    rw [collideOne]
    by_cases hcond : checkCollision p q 30 ∧ p.status ≠ .crashed ∧ q.status ≠ .crashed
    · rw [if_pos hcond]
      rcases List.mem_cons.mp hmem with hxq | hxqs
      · exact absurd (hxq ▸ hx) hcond.2.2
      · exact List.mem_cons_of_mem _ (ih _ _ hxqs)
    · rw [if_neg hcond]
      rcases List.mem_cons.mp hmem with hxq | hxqs
      · exact List.mem_cons.mpr (Or.inl hxq)
      · exact List.mem_cons_of_mem _ (ih _ _ hxqs)

theorem collisionPass_mem_crashed (x : Plane) (hx : x.status = .crashed) :
    ∀ (n : ℕ) (l : List Plane), l.length ≤ n → ∀ c : ℕ,
      x ∈ l → x ∈ (collisionPass c l).1 := by
  intro n
  induction n with
  | zero =>
    intro l hl c hmem
    have hnil : l = [] := List.eq_nil_of_length_eq_zero (Nat.le_zero.mp hl)
    subst hnil
    cases hmem
  | succ n ih =>
    intro l hl c hmem
    cases l with
    | nil => cases hmem
    | cons p rest =>
      simp only [collisionPass]
      rcases List.mem_cons.mp hmem with hxp | hxrest
      · subst hxp
        rw [collideOne_crashed x hx rest c]
        simp
      · have h1 : x ∈ (collideOne p c rest).2.1 := collideOne_mem_crashed x hx rest p c hxrest
        have hlen : (collideOne p c rest).2.1.length ≤ n := by
          rw [collideOne_length]
          simp only [List.length_cons] at hl
          omega
        exact List.mem_cons_of_mem _ (ih _ hlen _ h1)

theorem airportZonePass_mem_crashed (x : Plane) (hx : x.status = .crashed)
    (airport : Airport) :
    ∀ (l : List Plane) (c : ℕ), x ∈ l → x ∈ (airportZonePass airport c l).1 := by
  intro l
  induction l with
  | nil => intro c h; cases h
  | cons p rest ih =>
    intro c hmem
    rw [airportZonePass]
    by_cases hcond : p.status = .flying ∧
        isOverAirport p.position airport.runwayStart airport.runwayEnd airport.runwayWidth
    · rw [if_pos hcond]
      rcases List.mem_cons.mp hmem with hxp | hxrest
      · have h1 : p.status = .crashed := hxp ▸ hx
        rw [hcond.1] at h1
        exact absurd h1 (by decide)
      · exact List.mem_cons_of_mem _ (ih _ hxrest)
    · rw [if_neg hcond]
      rcases List.mem_cons.mp hmem with hxp | hxrest
      · exact List.mem_cons.mpr (Or.inl hxp)
      · exact List.mem_cons_of_mem _ (ih _ hxrest)

/-- C5: terminal aircraft are frozen and invisible to the collision
check, and this is preserved by every simulation tick: (1) the per-tick
movement and landing steps return a `landed`/`crashed` plane entirely
unchanged (position and heading included); (2) a `crashed` plane
survives the whole tick unchanged as a member of the roster; (3) a pair
with any terminal member is never flagged by the pairwise collision
check. -/
theorem terminal_state_freeze (cfg : GameConfig) (deltaTime : ℝ) (state : GameState) :
    (∀ (dt cw ch : ℝ) (airport : Airport) (p : Plane),
       p.status = .landed ∨ p.status = .crashed →
       movePlane cfg dt airport cw ch p = p ∧ checkLanding p airport = p) ∧
    (∀ p ∈ state.planes, p.status = .crashed →
       p ∈ (updateGame cfg deltaTime state).planes) ∧
    (∀ (p q : Plane) (d : ℝ),
       p.status = .crashed ∨ p.status = .landed ∨
         q.status = .crashed ∨ q.status = .landed →
       ¬ checkCollision p q d) := by
  refine ⟨fun dt cw ch airport p h =>
      ⟨movePlane_terminal _ _ _ _ _ _ h, checkLanding_terminal _ _ h⟩,
    ?_, fun p q d h => checkCollision_terminal p q d h⟩
  intro p hp hcrash
  unfold updateGame
  by_cases hpause : state.isPaused = true
  · rw [if_pos hpause]
    exact hp
  · rw [if_neg hpause]
    simp only
    have h1 : p ∈ state.planes.map (movePlane cfg (deltaTime / 16.67) state.airport
        state.canvasWidth state.canvasHeight) :=
      List.mem_map.mpr ⟨p, hp, movePlane_terminal _ _ _ _ _ _ (Or.inr hcrash)⟩
    have h2 := collisionPass_mem_crashed p hcrash _ _ le_rfl state.collisions h1
    have h3 := airportZonePass_mem_crashed p hcrash state.airport _
      (collisionPass state.collisions (state.planes.map (movePlane cfg
        (deltaTime / 16.67) state.airport state.canvasWidth state.canvasHeight))).2 h2
    have h4 : p ∈ ((airportZonePass state.airport
        (collisionPass state.collisions (state.planes.map (movePlane cfg
          (deltaTime / 16.67) state.airport state.canvasWidth state.canvasHeight))).2
        (collisionPass state.collisions (state.planes.map (movePlane cfg
          (deltaTime / 16.67) state.airport state.canvasWidth state.canvasHeight))).1).1.map
        (fun q => checkLanding q state.airport)) :=
      List.mem_map.mpr ⟨p, h3, checkLanding_terminal _ _ (Or.inr hcrash)⟩
    refine List.mem_filter.mpr ⟨h4, ?_⟩
    rw [hcrash]
    decide

/-- The crashed aircraft used by the C5 witness. -/
def wcrashed : Plane := ⟨"C", ⟨50, 50⟩, 0, 0, .crashed, "CC1", "gray"⟩

/-- The one-plane session state used by the C5 witness. -/
def wstate : GameState :=
  ⟨[wcrashed], ⟨⟨500, 300⟩, ⟨400, 300⟩, ⟨600, 300⟩, 40, 0⟩, 800, 600, false, 0, 0, 0⟩

/-- Witness for C5 at a concrete input: a crashed plane is returned
unchanged by the movement step, stays in the roster across a full
tick, and is never flagged by the collision check. -/
theorem terminal_state_freeze_witness :
    movePlane wcfg 1 wstate.airport 800 600 wcrashed = wcrashed ∧
    wcrashed ∈ (updateGame wcfg 16.67 wstate).planes ∧
    ¬ checkCollision wcrashed wcrashed 30 := by
  have h := terminal_state_freeze wcfg 16.67 wstate
  refine ⟨(h.1 1 800 600 wstate.airport wcrashed (Or.inr rfl)).1, ?_,
    h.2.2 wcrashed wcrashed 30 (Or.inl rfl)⟩
  exact h.2.1 wcrashed (List.mem_cons_self _ _) rfl

end AgenticAirport
